import Mathlib

set_option maxHeartbeats 1000000

namespace CaSTM

/-- A version node of a transactional variable: an immutable timestamp plus a
payload.  The singly linked `prev` chain of the C++ `VersionNode` is embedded
as a head-first `List (VNode α)`. -/
structure VNode (α : Type) where
  write_ts : Nat
  payload : α
deriving DecidableEq

/-- Embedding of `TMVar<T>::validate` (src/include/MVOSTM/TMVar.hpp, the
uncommented, strict implementation): an empty variable validates trivially;
otherwise the head alone is checked against the read version. -/
def validate {α : Type} (chain : List (VNode α)) (rv : Nat) : Bool :=
  match chain with
  | [] => true
  | hd :: _ => if rv < hd.write_ts then false else true

/-- Embedding of the version-walk loop shared by the OCC `load` functions:
starting from the head, follow `prev` until a node with `write_ts <= rv`
is found. -/
def findVisible {α : Type} : List (VNode α) → Nat → Option (VNode α)
  | [], _ => none
  | n :: t, rv => if n.write_ts ≤ rv then some n else findVisible t rv

/-- Result of a transactional load: either a payload or the thrown
`RetryException` (conflict signal). -/
inductive LoadResult (α : Type) where
  | ok (v : α)
  | retry
deriving DecidableEq

/-- Embedding of the read-your-own-writes scan at the top of
`Transaction::load` (src/include/OccSTM/Transaction.hpp): the write set is
iterated in reverse and the first match from the back wins. -/
def findOwnWrite {α : Type} : List (Nat × VNode α) → Nat → Option (VNode α)
  | [], _ => none
  | e :: rest, a =>
    match findOwnWrite rest a with
    | some n => some n
    | none => if e.1 = a then some e.2 else none

/-- Embedding of `STM::Occ::Transaction::load`
(src/include/OccSTM/Transaction.hpp lines 52-82): read-your-own-writes scan,
then walk the variable chain for a node with `write_ts <= rv`, throwing
`RetryException` when none is visible. -/
def occLoad {α : Type} (wset : List (Nat × VNode α)) (a : Nat)
    (chain : List (VNode α)) (rv : Nat) : LoadResult α :=
  match findOwnWrite wset a with
  | some n => LoadResult.ok n.payload
  | none =>
    match findVisible chain rv with
    | some n => LoadResult.ok n.payload
    | none => LoadResult.retry

/-- Modelled from the spec: OccSTM's `TMVar.hpp` is not under src (only its
callers are).  Spec 4.4.2 gives the single-version OCC variable shape: "a
variable owns exactly one version node", whose committer CAS-replaces the head
and retires the displaced node, so the published head's `prev` link is always
null.  A single-version variable is therefore a one-node chain. -/
def svChain {α : Type} (n : VNode α) : List (VNode α) := [n]

/-- `TMVar<T>::MAX_HISTORY` (src/include/MVOSTM/TMVar.hpp line 22). -/
def MAX_HISTORY : Nat := 8

/-- Embedding of the history-walk loop inside `TMVar<T>::committer`
(src/include/MVOSTM/TMVar.hpp lines 124-130): `curr` starts at the new head
and follows `prev` while `curr` is non-null and `depth < MAX_HISTORY`;
the final `curr` (as the suffix it heads) is returned. -/
def historyWalk {α : Type} : List (VNode α) → Nat → List (VNode α)
  | [], _ => []
  | l@(_ :: t), depth =>
    if depth < MAX_HISTORY then historyWalk t (depth + 1) else l

/-- Embedding of `TMVar<T>::committer` (src/include/MVOSTM/TMVar.hpp lines
112-138).  The new node is stamped with `wv` and linked in front of the old
head; then the walk runs, and if the final `curr` exists and has a `prev`,
that `prev` chain (`garbage`) is detached by nulling the link and retired.
The result is the pair (chain still reachable from the head, detached
suffix handed to EBR); the reachable part is the prefix of the published
chain that ends at the final `curr`. -/
def committer {α : Type} (chain : List (VNode α)) (p : α) (wv : Nat) :
    List (VNode α) × List (VNode α) :=
  let chain1 := VNode.mk wv p :: chain
  match historyWalk chain1 0 with
  | [] => (chain1, [])
  | [_] => (chain1, [])
  | _ :: g => (chain1.take (chain1.length - g.length), g)

theorem historyWalk_eq_drop {α : Type} :
    ∀ (l : List (VNode α)) (d : Nat), historyWalk l d = l.drop (MAX_HISTORY - d) := by
  intro l
  induction l with
  | nil => intro d; simp [historyWalk]
  | cons x t ih =>
    intro d
    by_cases h : d < MAX_HISTORY
    · have h8 : MAX_HISTORY - d = (MAX_HISTORY - (d + 1)) + 1 := by omega
      simp [historyWalk, h, ih (d + 1), h8]
    · have h0 : MAX_HISTORY - d = 0 := by omega
      simp [historyWalk, h, h0]

theorem committer_take_drop {α : Type} (chain : List (VNode α)) (p : α) (wv : Nat) :
    committer chain p wv =
      ((VNode.mk wv p :: chain).take (MAX_HISTORY + 1),
       (VNode.mk wv p :: chain).drop (MAX_HISTORY + 1)) := by
  simp only [committer, historyWalk_eq_drop, Nat.sub_zero]
  rcases h : (VNode.mk wv p :: chain).drop MAX_HISTORY with _ | ⟨c, _ | ⟨d, g⟩⟩
  · have hlen : (VNode.mk wv p :: chain).length - MAX_HISTORY = 0 := by
      rw [← List.length_drop, h, List.length_nil]
    have hc : chain.length + 1 - MAX_HISTORY = 0 := by
      rw [← List.length_cons (a := VNode.mk wv p)]; exact hlen
    have h1 : (VNode.mk wv p :: chain).take (MAX_HISTORY + 1) = VNode.mk wv p :: chain :=
      List.take_of_length_le (by simp [List.length_cons]; omega)
    have h2 : (VNode.mk wv p :: chain).drop (MAX_HISTORY + 1) = [] :=
      List.drop_eq_nil_of_le (by simp [List.length_cons]; omega)
    rw [h1, h2]
  · have hlen : (VNode.mk wv p :: chain).length - MAX_HISTORY = 1 := by
      rw [← List.length_drop, h, List.length_cons, List.length_nil]
    have hc : chain.length + 1 - MAX_HISTORY = 1 := by
      rw [← List.length_cons (a := VNode.mk wv p)]; exact hlen
    have h1 : (VNode.mk wv p :: chain).take (MAX_HISTORY + 1) = VNode.mk wv p :: chain :=
      List.take_of_length_le (by simp [List.length_cons]; omega)
    have h2 : (VNode.mk wv p :: chain).drop (MAX_HISTORY + 1) = [] :=
      List.drop_eq_nil_of_le (by simp [List.length_cons]; omega)
    rw [h1, h2]
  · have hdd : (VNode.mk wv p :: chain).drop (MAX_HISTORY + 1) = d :: g := by
      have hstep : (VNode.mk wv p :: chain).drop (MAX_HISTORY + 1) =
          ((VNode.mk wv p :: chain).drop MAX_HISTORY).drop 1 := by
        rw [List.drop_drop]
      rw [hstep, h, List.drop_one, List.tail_cons]
    have hlen : (VNode.mk wv p :: chain).length - MAX_HISTORY = g.length + 2 := by
      rw [← List.length_drop, h, List.length_cons, List.length_cons]
    have hc : chain.length + 1 - MAX_HISTORY = g.length + 2 := by
      rw [← List.length_cons (a := VNode.mk wv p)]; exact hlen
    have hsub : (VNode.mk wv p :: chain).length - (d :: g).length = MAX_HISTORY + 1 := by
      simp only [List.length_cons]
      omega
    rw [hdd]
    show (List.take ((VNode.mk wv p :: chain).length - (d :: g).length)
        (VNode.mk wv p :: chain), d :: g) =
      (List.take (MAX_HISTORY + 1) (VNode.mk wv p :: chain), d :: g)
    rw [hsub]

/-- Claim C2: `TMVar::validate` returns true iff the current head has
`write_ts <= rv` (an empty variable validates trivially), and a head newer
than `rv` fails validation even when an older version visible at `rv` still
exists further down the chain. -/
theorem validate_strict_head_check (α : Type) (chain : List (VNode α)) (rv : Nat) :
    (validate chain rv = true ↔ ∀ hd ∈ chain.head?, hd.write_ts ≤ rv) ∧
    (∀ hd tl, chain = hd :: tl → rv < hd.write_ts →
      (∃ n ∈ tl, n.write_ts ≤ rv) → validate chain rv = false) := by
  constructor
  · cases chain with
    | nil => simp [validate]
    | cons hd tl =>
      simp only [validate, List.head?_cons, Option.mem_def, Option.some.injEq]
      constructor
      · intro h n hn
        subst hn
        by_cases hlt : rv < hd.write_ts
        · simp [hlt] at h
        · omega
      · intro h
        have := h hd rfl
        have hlt : ¬ rv < hd.write_ts := by omega
        simp [hlt]
  · intro hd tl hchain hlt _
    subst hchain
    simp [validate, hlt]

theorem validate_strict_head_check_witness :
    validate [VNode.mk 5 (0 : Nat), VNode.mk 1 7] 3 = false :=
  (validate_strict_head_check Nat [VNode.mk 5 (0 : Nat), VNode.mk 1 7] 3).2
    (VNode.mk 5 0) [VNode.mk 1 7] rfl (by decide) ⟨VNode.mk 1 7, by decide⟩

/-- Claim C5: on a single-version OCC variable (a one-node chain, per the
spec's SV-OCC shape) and with no own write pending, `Transaction::load`
returns the head's payload exactly when the head's `write_ts <= rv` and
signals retry otherwise; it never produces a payload from any non-head
node because the single node's `prev` is null. -/
theorem occ_load_single_version (α : Type) (wset : List (Nat × VNode α))
    (a : Nat) (n : VNode α) (rv : Nat) (hw : findOwnWrite wset a = none) :
    occLoad wset a (svChain n) rv =
      (if n.write_ts ≤ rv then LoadResult.ok n.payload else LoadResult.retry) := by
  unfold occLoad svChain
  rw [hw]
  by_cases h : n.write_ts ≤ rv
  · simp [findVisible, h]
  · simp [findVisible, h]

theorem occ_load_single_version_witness :
    occLoad ([] : List (Nat × VNode Nat)) 0 (svChain (VNode.mk 2 42)) 3 =
      (if (VNode.mk 2 (42 : Nat)).write_ts ≤ 3 then LoadResult.ok (VNode.mk 2 (42 : Nat)).payload
       else LoadResult.retry) :=
  occ_load_single_version Nat [] 0 (VNode.mk 2 42) 3 rfl

/-- Claim C6, counterexample: publishing onto a variable that already holds
MAX_HISTORY (8) nodes leaves MAX_HISTORY + 1 = 9 nodes reachable from the
head, refuting "at most 8 version nodes remain reachable". -/
theorem committer_retains_nine_cex :
    (committer (List.replicate 8 (VNode.mk 0 (0 : Nat))) 0 5).1.length = 9 ∧
    ¬ (committer (List.replicate 8 (VNode.mk 0 (0 : Nat))) 0 5).1.length ≤ MAX_HISTORY ∧
    MAX_HISTORY = 8 := by
  refine ⟨by decide, by decide, rfl⟩

/-- Claim C6 as amended: after `committer` publishes the new head stamped
with `wv`, at most MAX_HISTORY + 1 (= 9) version nodes remain reachable from
the head; the reachable prefix together with the detached garbage is exactly
the published chain, and the garbage is precisely the suffix beyond position
MAX_HISTORY, which is handed to EBR via the chain deleter. -/
theorem committer_history_bound (α : Type) (chain : List (VNode α)) (p : α) (wv : Nat) :
    (committer chain p wv).1.length ≤ MAX_HISTORY + 1 ∧
    (committer chain p wv).1 ++ (committer chain p wv).2 = VNode.mk wv p :: chain ∧
    (committer chain p wv).1.head? = some (VNode.mk wv p) ∧
    (committer chain p wv).2 = (VNode.mk wv p :: chain).drop (MAX_HISTORY + 1) := by
  rw [committer_take_drop]
  refine ⟨?_, ?_, ?_, rfl⟩
  · simp [List.length_take]
  · simp [List.take_append_drop]
  · have : MAX_HISTORY + 1 = (MAX_HISTORY) + 1 := rfl
    simp [List.take_succ_cons, MAX_HISTORY]

/-- `StripedLockTable::kTableSize` (src/include/OccSTM/StripedLockTable.hpp
line 13): 2 to the 20. -/
def kTableSize : Nat := 2 ^ 20

/-- Embedding of `StripedLockTable::getStripeIndex`: `hash(addr) & kTableMask`
with the libstdc++ identity hash over pointer values, i.e. the address modulo
the table size.  Addresses are embedded as naturals. -/
def getStripeIndex (addr : Nat) : Nat := addr % kTableSize

/-- Insertion step of the sort used to model `std::sort` over the lock set
(ascending order). -/
def insertSorted (x : Nat) : List Nat → List Nat
  | [] => [x]
  | y :: t => if x ≤ y then x :: y :: t else y :: insertSorted x t

/-- Model of `std::sort(locks.begin(), locks.end())`: insertion sort
ascending. -/
def sortAsc (l : List Nat) : List Nat := l.foldr insertSorted []

/-- Model of `std::unique` followed by `erase`: removes consecutive
duplicates. -/
def uniqueConsecutive : List Nat → List Nat
  | [] => []
  | [a] => [a]
  | a :: b :: t =>
    if a = b then uniqueConsecutive (b :: t) else a :: uniqueConsecutive (b :: t)

/-- Embedding of the MVOSTM `Transaction::lockWriteSet`
(src/include/MVOSTM/Transaction.hpp lines 151-167): the lock set is the
write-set ADDRESSES sorted and deduplicated. -/
def mvLockSet (wsetAddrs : List Nat) : List Nat :=
  uniqueConsecutive (sortAsc wsetAddrs)

/-- The stripe indices the MVOSTM `lockWriteSet` acquires, in order: it calls
`lock_table.lock(addr)` for each lock-set entry, which hashes the address to
a stripe index at locking time. -/
def mvAcquiredStripes (wsetAddrs : List Nat) : List Nat :=
  (mvLockSet wsetAddrs).map getStripeIndex

/-- Embedding of the CaSTM `Transaction::lockWriteSet`
(src/src/CaSTM/Transaction.cpp lines 80-104): the lock set holds the stripe
INDICES of the write-set addresses, sorted and deduplicated, and
`lockByIndex` is then called once per entry. -/
def castmLockSet (wsetAddrs : List Nat) : List Nat :=
  uniqueConsecutive (sortAsc (wsetAddrs.map getStripeIndex))

/-- Claim C1: evaluation at the failing input.  Two distinct variable
addresses, 64 and 64 + 2^20, land in the same lock-table stripe.  The MVOSTM
`lockWriteSet` keeps both (its lock set dedups addresses, and is indeed
sorted and duplicate-free), yet the stripes it acquires are [64, 64]: the
non-recursive `lockByIndex` is taken twice on index 64 by one transaction,
which self-deadlocks.  The CaSTM variant dedups the indices themselves and
acquires stripe 64 once. -/
theorem lock_stripe_dedup_bug :
    mvLockSet [64, 64 + kTableSize] = [64, 64 + kTableSize] ∧
    List.Sorted (· ≤ ·) (mvLockSet [64, 64 + kTableSize]) ∧
    (mvLockSet [64, 64 + kTableSize]).Nodup ∧
    mvAcquiredStripes [64, 64 + kTableSize] = [64, 64] ∧
    ¬ (mvAcquiredStripes [64, 64 + kTableSize]).Nodup ∧
    castmLockSet [64, 64 + kTableSize] = [64] := by
  refine ⟨by decide, ?_, by decide, by decide, by decide, by decide⟩
  have h : mvLockSet [64, 64 + kTableSize] = [64, 64 + kTableSize] := by decide
  rw [h]
  decide

/-- Modelled from the spec: `TxStatus.hpp` (with `TxStatusHelper`) is not
under src; only its callers are.  Spec 4.6 and the WW state machine give the
transitions: commit is a CAS of the status from ACTIVE to COMMITTED and
abort or wound is a CAS from ACTIVE to ABORTED. -/
inductive TxStatus where
  | ACTIVE
  | COMMITTED
  | ABORTED
deriving DecidableEq

/-- Modelled from the spec: `TxStatusHelper::tryCommit` — CAS expecting
ACTIVE, installing COMMITTED; returns the resulting status and whether the
CAS succeeded. -/
def tryCommit (s : TxStatus) : TxStatus × Bool :=
  if s = TxStatus.ACTIVE then (TxStatus.COMMITTED, true) else (s, false)

/-- Modelled from the spec: `TxStatusHelper::tryAbort` — CAS expecting
ACTIVE, installing ABORTED; returns the resulting status and whether the
CAS succeeded. -/
def tryAbort (s : TxStatus) : TxStatus × Bool :=
  if s = TxStatus.ACTIVE then (TxStatus.ABORTED, true) else (s, false)

/-- The status mutations the WW engine ever performs on a live descriptor:
the commit CAS (`TxContext::commit`) and the abort CAS (self-abort in
`TxContext::abortTransaction`, or a wounder in
`TxContext::resolveConflict`). -/
inductive StatusOp where
  | commitOp
  | abortOp
deriving DecidableEq

/-- Apply one status CAS. -/
def applyStatusOp (s : TxStatus) : StatusOp → TxStatus
  | StatusOp.commitOp => (tryCommit s).1
  | StatusOp.abortOp => (tryAbort s).1

/-- Run a sequence of status CASes against a descriptor status. -/
def runStatusOps (s : TxStatus) (ops : List StatusOp) : TxStatus :=
  ops.foldl applyStatusOp s

/-- Claim C4: once a WW descriptor status is COMMITTED or ABORTED it never
changes again under any sequence of the engine's status operations, because
every transition is a CAS whose expected value is ACTIVE; a non-ACTIVE
status is left untouched by any single operation. -/
theorem ww_status_terminal (ops : List StatusOp) :
    runStatusOps TxStatus.COMMITTED ops = TxStatus.COMMITTED ∧
    runStatusOps TxStatus.ABORTED ops = TxStatus.ABORTED ∧
    (∀ s op, s ≠ TxStatus.ACTIVE → applyStatusOp s op = s) := by
  have hstep : ∀ s op, s ≠ TxStatus.ACTIVE → applyStatusOp s op = s := by
    intro s op hs
    cases op <;> simp [applyStatusOp, tryCommit, tryAbort, hs]
  refine ⟨?_, ?_, hstep⟩ <;>
  · induction ops with
    | nil => rfl
    | cons op rest ih =>
      simp only [runStatusOps, List.foldl_cons] at ih ⊢
      rw [hstep _ op (by simp)]
      exact ih

theorem ww_status_terminal_witness :
    runStatusOps TxStatus.COMMITTED [StatusOp.abortOp, StatusOp.commitOp] = TxStatus.COMMITTED ∧
    applyStatusOp TxStatus.ABORTED StatusOp.commitOp = TxStatus.ABORTED :=
  ⟨(ww_status_terminal [StatusOp.abortOp, StatusOp.commitOp]).1,
   (ww_status_terminal [StatusOp.abortOp, StatusOp.commitOp]).2.2
     TxStatus.ABORTED StatusOp.commitOp (by decide)⟩

/-- Result of `TxContext::resolveConflict`
(src/include/WwSTM/TxContext.hpp lines 290-314): the owner status after the
call and whether the caller aborted itself. -/
structure ResolveResult where
  enemyStatus : TxStatus
  selfAborted : Bool
deriving DecidableEq

/-- Embedding of `TxContext::resolveConflict`.  The owner status `s` is the
value loaded at the top of the function (in this sequential embedding the
wound CAS acts on the same value).  ABORTED owner: nothing to do (slot is
stealable).  COMMITTED owner: wait for cleanup, no status change by us.
ACTIVE owner: the age test — older means strictly smaller start timestamp,
ties broken by descriptor address — decides between wounding the owner
(CAS ACTIVE to ABORTED, self untouched, so the write loop retries) and
aborting ourselves. -/
def resolveConflict (myTs enemyTs myAddr enemyAddr : Nat) (s : TxStatus) :
    ResolveResult :=
  match s with
  | TxStatus.ABORTED => ⟨TxStatus.ABORTED, false⟩
  | TxStatus.COMMITTED => ⟨TxStatus.COMMITTED, false⟩
  | TxStatus.ACTIVE =>
    let iAmOlder : Bool :=
      if myTs = enemyTs then decide (myAddr < enemyAddr) else decide (myTs < enemyTs)
    if iAmOlder then ⟨(tryAbort TxStatus.ACTIVE).1, false⟩
    else ⟨TxStatus.ACTIVE, true⟩

/-- Claim C3: a WW write-write conflict against an ACTIVE owner is resolved
by wound-wait on start timestamps.  The writer with the strictly smaller
start_ts — ties broken by descriptor address order — wounds the owner
(CAS ACTIVE to ABORTED) without aborting itself, so its write loop retries;
the writer with the larger start_ts aborts itself and leaves the owner
ACTIVE. -/
theorem wound_wait_resolution (myTs enemyTs myAddr enemyAddr : Nat) :
    ((myTs < enemyTs ∨ (myTs = enemyTs ∧ myAddr < enemyAddr)) →
      resolveConflict myTs enemyTs myAddr enemyAddr TxStatus.ACTIVE =
        ⟨TxStatus.ABORTED, false⟩) ∧
    ((enemyTs < myTs ∨ (myTs = enemyTs ∧ enemyAddr < myAddr)) →
      resolveConflict myTs enemyTs myAddr enemyAddr TxStatus.ACTIVE =
        ⟨TxStatus.ACTIVE, true⟩) := by
  constructor
  · intro h
    rcases h with h | ⟨heq, haddr⟩
    · have hne : myTs ≠ enemyTs := by omega
      simp [resolveConflict, hne, h, tryAbort]
    · simp [resolveConflict, heq, haddr, tryAbort]
  · intro h
    rcases h with h | ⟨heq, haddr⟩
    · have hne : myTs ≠ enemyTs := by omega
      have hnl : ¬ myTs < enemyTs := by omega
      simp [resolveConflict, hne, hnl]
    · have hnl : ¬ myAddr < enemyAddr := by omega
      simp [resolveConflict, heq, hnl]

theorem wound_wait_resolution_witness :
    resolveConflict 1 2 10 20 TxStatus.ACTIVE = ⟨TxStatus.ABORTED, false⟩ ∧
    resolveConflict 2 1 10 20 TxStatus.ACTIVE = ⟨TxStatus.ACTIVE, true⟩ :=
  ⟨(wound_wait_resolution 1 2 10 20).1 (Or.inl (by decide)),
   (wound_wait_resolution 2 1 10 20).2 (Or.inl (by decide))⟩

/-- The `TxContext` state visible to the embedding
(src/include/WwSTM/TxContext.hpp): the `is_active_` flag, whether `my_desc_`
is non-null, the descriptor status, the read set as (variable address,
logged data version) pairs, and the write set as variable addresses. -/
structure WwCtx where
  is_active : Bool
  has_desc : Bool
  status : TxStatus
  read_set : List (Nat × Nat)
  write_set : List Nat
deriving DecidableEq

/-- Embedding of `TxContext::ensureActive` (lines 243-250): false when the
context flag is down or the descriptor is gone; a descriptor observed
ABORTED (for instance after being wounded) drops the flag and fails. -/
def ensureActive (s : WwCtx) : Bool × WwCtx :=
  if s.is_active = false then (false, s)
  else if s.has_desc = false then (false, s)
  else if s.status = TxStatus.ABORTED then (false, { s with is_active := false })
  else (true, s)

/-- Embedding of `TxContext::cleanupResources` (lines 230-241): clears both
sets, drops the active flag, and retires the descriptor. -/
def cleanupResources (s : WwCtx) : WwCtx :=
  { is_active := false, has_desc := false, status := s.status,
    read_set := [], write_set := [] }

/-- Embedding of `TxContext::abortTransaction` (lines 216-228): a no-op
without a descriptor; otherwise CAS the status to ABORTED (expecting
ACTIVE), drop the flag, roll back the installed write records (a per-variable
effect) and clean up. -/
def abortTransaction (s : WwCtx) : WwCtx :=
  if s.has_desc = false then s
  else cleanupResources { s with status := (tryAbort s.status).1, is_active := false }

/-- Embedding of `TxContext::startNewTransaction` (lines 206-214): clear the
sets and install a fresh ACTIVE descriptor. -/
def startNewTransaction (_s : WwCtx) : WwCtx :=
  { is_active := true, has_desc := true, status := TxStatus.ACTIVE,
    read_set := [], write_set := [] }

/-- Embedding of `TxContext::begin` (lines 64-69): abort any current
descriptor, then start fresh. -/
def wwBegin (s : WwCtx) : WwCtx :=
  startNewTransaction (if s.has_desc then abortTransaction s else s)

/-- Embedding of `TxContext::validateReadSet` (lines 261-274): an entry
locked by our own write set is skipped; otherwise the variable's current data
version must equal the logged one. -/
def wwValidateReadSet (rset : List (Nat × Nat)) (wset : List Nat)
    (ver : Nat → Nat) : Bool :=
  rset.all (fun e => wset.contains e.1 || ver e.1 == e.2)

/-- What `TxContext::commit` (lines 75-100) produces: the boolean result,
the global clock after the call (ticked only on the writer path, modelled
from the spec since `GlobalClock.hpp` is not under src: `tick` fetch-adds 1),
the variable addresses whose records were promoted, and the final context. -/
structure WwCommitRes where
  success : Bool
  clock : Nat
  published : List Nat
  state : WwCtx
deriving DecidableEq

/-- Embedding of `TxContext::commit` (src/include/WwSTM/TxContext.hpp lines
75-100): ensureActive gate, then read-set validation, then the empty
write-set fast path, then the commit CAS, the clock tick and the per-variable
record promotion. -/
def wwCommit (s : WwCtx) (ver : Nat → Nat) (clock : Nat) : WwCommitRes :=
  let r := ensureActive s
  if r.1 = false then ⟨false, clock, [], r.2⟩
  else
    let s1 := r.2
    if wwValidateReadSet s1.read_set s1.write_set ver = false then
      ⟨false, clock, [], abortTransaction s1⟩
    else if s1.write_set.isEmpty then ⟨true, clock, [], cleanupResources s1⟩
    else
      let c := tryCommit s1.status
      if c.2 = false then ⟨false, clock, [], abortTransaction { s1 with status := c.1 }⟩
      else
        ⟨true, clock + 1, s1.write_set, cleanupResources { s1 with status := c.1 }⟩

/-- Embedding of `TxContext::read` (src/include/WwSTM/TxContext.hpp lines
113-152): null variable yields a default value with no effect; a dead
context yields a default value; then read-your-own-writes from the write set
(the draft payload), then the read-set fast path (readProxy), and finally
the fresh read with the pre/post data-version check that aborts on a
mismatch and logs the entry otherwise.  `draftOf` and `proxyOf` supply the
payloads the record draft and `readProxy` would return; `vPre` and `vPost`
are the two data-version observations. -/
def wwRead (s : WwCtx) (var : Option Nat) (draftOf proxyOf : Nat → Nat)
    (vPre vPost : Nat) : Nat × WwCtx :=
  match var with
  | none => (0, s)
  | some a =>
    let r := ensureActive s
    if r.1 = false then (0, r.2)
    else
      let s1 := r.2
      if s1.write_set.contains a then (draftOf a, s1)
      else if s1.read_set.any (fun e => e.1 == a) then (proxyOf a, s1)
      else if vPre ≠ vPost then (0, abortTransaction s1)
      else (proxyOf a, { s1 with read_set := s1.read_set ++ [(a, vPre)] })

/-- One iteration outcome of the acquisition loop in `TxContext::write`:
either `tryWriteAndGetRecord` returned a record (with the variable's data
version as observed by the post-lock staleness check), or it reported a
conflict with an owner of the given start_ts, address and status. -/
inductive WAttempt where
  | acquired (curVer : Nat)
  | conflicted (eTs eAddr : Nat) (eStatus : TxStatus)
deriving DecidableEq

/-- Embedding of the while-loop of `TxContext::write` (lines 174-202): on
acquisition, the matching read-set entry (if any) is checked against the
current data version — a mismatch rolls the record back and aborts, a match
appends the variable to the write set; on conflict, `resolveConflict` runs,
then the loop re-checks `ensureActive` and retries.  The attempt list is the
fuel; an exhausted list means the loop is still spinning (`none`). -/
def wwWriteLoop (s : WwCtx) (a : Nat) (myTs myAddr : Nat) :
    List WAttempt → Option WwCtx
  | [] => none
  | WAttempt.acquired curVer :: _ =>
    match s.read_set.find? (fun e => e.1 == a) with
    | some e =>
      if curVer = e.2 then some { s with write_set := s.write_set ++ [a] }
      else some (abortTransaction s)
    | none => some { s with write_set := s.write_set ++ [a] }
  | WAttempt.conflicted eTs eAddr eStatus :: rest =>
    let rr := resolveConflict myTs eTs myAddr eAddr eStatus
    let s1 := if rr.selfAborted then abortTransaction s else s
    let r2 := ensureActive s1
    if r2.1 = false then some r2.2
    else wwWriteLoop r2.2 a myTs myAddr rest

/-- Embedding of `TxContext::write` (src/include/WwSTM/TxContext.hpp lines
154-203): null variable returns with no effect; a dead context returns with
no effect; a variable already in the write set takes the reentrant path
(replacing the draft node, write set unchanged); otherwise the acquisition
loop runs. -/
def wwWrite (s : WwCtx) (var : Option Nat) (myTs myAddr : Nat)
    (att : List WAttempt) : Option WwCtx :=
  match var with
  | none => some s
  | some a =>
    let r := ensureActive s
    if r.1 = false then some r.2
    else if r.2.write_set.contains a then some r.2
    else wwWriteLoop r.2 a myTs myAddr att

/-- A context that has been aborted mid-closure: the local flag is down, the
descriptor is gone, or the descriptor was wounded to ABORTED. -/
def isDead (s : WwCtx) : Prop :=
  s.is_active = false ∨ s.has_desc = false ∨ s.status = TxStatus.ABORTED

theorem ensureActive_of_dead (s : WwCtx) (h : isDead s) :
    (ensureActive s).1 = false ∧
    (ensureActive s).2.read_set = s.read_set ∧
    (ensureActive s).2.write_set = s.write_set ∧
    (ensureActive s).2.has_desc = s.has_desc ∧
    (ensureActive s).2.status = s.status ∧
    isDead (ensureActive s).2 := by
  rcases h with h | h | h
  · simp [ensureActive, h, isDead]
  · by_cases ha : s.is_active = false
    · simp [ensureActive, ha, isDead, h]
    · simp [ensureActive, ha, h, isDead]
  · by_cases ha : s.is_active = false
    · simp [ensureActive, ha, isDead, h]
    · by_cases hd : s.has_desc = false
      · simp [ensureActive, ha, hd, isDead]
      · simp [ensureActive, ha, hd, h, isDead]

/-- Claim C9: once a WW transaction is dead mid-closure (wounded to ABORTED,
or locally aborted so the flag or descriptor is gone), every subsequent
`read` returns the default value 0 and leaves both sets unchanged, every
subsequent `write` is a no-op on the context, the eventual `commit` returns
false, the context stays dead through all of these, and only `begin`
revives it with a fresh ACTIVE descriptor. -/
theorem ww_dead_transaction_behavior (s : WwCtx) (a : Nat)
    (draftOf proxyOf : Nat → Nat) (vPre vPost : Nat) (myTs myAddr : Nat)
    (att : List WAttempt) (ver : Nat → Nat) (clock : Nat) (hdead : isDead s) :
    wwRead s (some a) draftOf proxyOf vPre vPost = (0, (ensureActive s).2) ∧
    (ensureActive s).2.read_set = s.read_set ∧
    (ensureActive s).2.write_set = s.write_set ∧
    isDead (ensureActive s).2 ∧
    wwWrite s (some a) myTs myAddr att = some (ensureActive s).2 ∧
    (wwCommit s ver clock).success = false ∧
    isDead (wwCommit s ver clock).state ∧
    (wwBegin s).is_active = true ∧ (wwBegin s).has_desc = true ∧
    (wwBegin s).status = TxStatus.ACTIVE := by
  obtain ⟨h1, h2, h3, _h4, _h5, h6⟩ := ensureActive_of_dead s hdead
  refine ⟨?_, h2, h3, h6, ?_, ?_, ?_, rfl, rfl, rfl⟩
  · simp [wwRead, h1]
  · simp [wwWrite, h1]
  · simp [wwCommit, h1]
  · simp [wwCommit, h1]
    exact h6

theorem ww_dead_transaction_behavior_witness :
    wwRead ⟨true, true, TxStatus.ABORTED, [(1, 2)], []⟩ (some 7)
        (fun _ => 9) (fun _ => 9) 0 0 =
      (0, (ensureActive ⟨true, true, TxStatus.ABORTED, [(1, 2)], []⟩).2) ∧
    (wwCommit ⟨true, true, TxStatus.ABORTED, [(1, 2)], []⟩ (fun _ => 0) 5).success
      = false :=
  ⟨(ww_dead_transaction_behavior ⟨true, true, TxStatus.ABORTED, [(1, 2)], []⟩ 7
      (fun _ => 9) (fun _ => 9) 0 0 0 0 [] (fun _ => 0) 5
      (Or.inr (Or.inr rfl))).1,
   (ww_dead_transaction_behavior ⟨true, true, TxStatus.ABORTED, [(1, 2)], []⟩ 7
      (fun _ => 9) (fun _ => 9) 0 0 0 0 [] (fun _ => 0) 5
      (Or.inr (Or.inr rfl))).2.2.2.2.2.1⟩

/-- Claim C10: in the WW flavor, `read` on a null variable pointer returns a
default-constructed value (0 for the Nat instantiation) and `write` on a null
variable pointer returns immediately; neither touches the context state at
all — no abort, no error, no fail-fast. -/
theorem ww_null_var_noop (s : WwCtx) (draftOf proxyOf : Nat → Nat)
    (vPre vPost : Nat) (myTs myAddr : Nat) (att : List WAttempt) :
    wwRead s none draftOf proxyOf vPre vPost = (0, s) ∧
    wwWrite s none myTs myAddr att = some s :=
  ⟨rfl, rfl⟩

/-- What the MVOSTM and CaSTM `Transaction::commit` produce: the boolean
result, the clock afterwards (`GlobalClock.hpp` is not under src; per the
spec `tick` fetch-adds 1), the addresses whose committers ran, and whether
the descriptor was reset. -/
structure MvCommitRes where
  success : Bool
  clock : Nat
  published : List Nat
  didReset : Bool
deriving DecidableEq

/-- Embedding of one read-set entry check inside the MVOSTM
`Transaction::validateReadSet` (src/include/MVOSTM/Transaction.hpp lines
121-148): pre lock check (a stripe locked by someone other than us fails),
the validator, then the post lock check after the fence. -/
def mvValidateEntry (chains : Nat → List (VNode Nat)) (locked : Nat → Bool)
    (lockSet : List Nat) (rv a : Nat) : Bool :=
  (!(locked a) || lockSet.contains a) && validate (chains a) rv &&
    (!(locked a) || lockSet.contains a)

/-- Embedding of `Transaction::validateReadSet`: every read-set entry must
pass. -/
def mvValidateReadSet (rset : List Nat) (chains : Nat → List (VNode Nat))
    (locked : Nat → Bool) (lockSet : List Nat) (rv : Nat) : Bool :=
  rset.all (mvValidateEntry chains locked lockSet rv)

/-- Embedding of the MVOSTM / CaSTM `Transaction::commit`
(src/include/MVOSTM/Transaction.hpp lines 92-119 and
src/src/CaSTM/Transaction.cpp lines 11-39, which share this structure): an
empty write set resets the descriptor and returns success before any lock,
tick or validation; otherwise the write set is locked, the clock ticked, the
read set validated (failure unlocks and returns false without reset), and
the committers run. -/
def mvCommit (wset rset : List Nat) (chains : Nat → List (VNode Nat))
    (locked : Nat → Bool) (rv clock : Nat) : MvCommitRes :=
  if wset.isEmpty then ⟨true, clock, [], true⟩
  else
    let lockSet := mvLockSet wset
    let wv := clock + 1
    if mvValidateReadSet rset chains locked lockSet rv then ⟨true, wv, wset, true⟩
    else ⟨false, wv, [], false⟩

theorem ensureActive_true_state (s : WwCtx) :
    (ensureActive s).1 = true → (ensureActive s).2 = s := by
  unfold ensureActive
  split_ifs <;> simp

/-- Claim C7, counterexample: in the WW flavor, `commit` validates the read
set before the empty-write-set fast path.  An active transaction with an
empty write set whose single read-set entry logged version 0 while the
variable's current data version is 5 gets false from `commit`, refuting
"commit returns success regardless of the contents of the read set". -/
theorem ww_empty_commit_validates_cex :
    (wwCommit ⟨true, true, TxStatus.ACTIVE, [(0, 0)], []⟩ (fun _ => 5) 17).success
      = false := rfl

/-- Claim C7 as amended: in the OCC flavors (MVOSTM and CaSTM) a commit with
an empty write set resets the descriptor and returns success regardless of
the read set, without ticking the clock or publishing any node.  In the WW
flavor a commit with an empty write set still neither ticks the clock nor
publishes, but it runs the `ensureActive` gate and read-set validation
first: it returns success exactly when the transaction is still active and
every read-set entry's data version is unchanged. -/
theorem empty_write_set_commit (rset : List Nat)
    (chains : Nat → List (VNode Nat)) (locked : Nat → Bool) (rv clock : Nat)
    (s : WwCtx) (ver : Nat → Nat) (clk2 : Nat) (hw : s.write_set = []) :
    mvCommit [] rset chains locked rv clock = ⟨true, clock, [], true⟩ ∧
    (wwCommit s ver clk2).clock = clk2 ∧
    (wwCommit s ver clk2).published = [] ∧
    (wwCommit s ver clk2).success =
      ((ensureActive s).1 && wwValidateReadSet s.read_set s.write_set ver) := by
  refine ⟨rfl, ?_⟩
  by_cases h : (ensureActive s).1 = false
  · simp [wwCommit, h]
  · have ht : (ensureActive s).1 = true := by
      cases hb : (ensureActive s).1
      · exact absurd hb h
      · rfl
    have hs := ensureActive_true_state s ht
    by_cases hv : wwValidateReadSet s.read_set s.write_set ver = false
    · simp [wwCommit, h, hs, hv, ht]
    · rw [hw] at hv
      have hv2 : wwValidateReadSet s.read_set [] ver = true := by
        cases hb : wwValidateReadSet s.read_set [] ver
        · exact absurd hb hv
        · rfl
      simp [wwCommit, h, hs, hw, hv2]

theorem empty_write_set_commit_witness :
    mvCommit [] [3] (fun _ => []) (fun _ => false) 0 5 = ⟨true, 5, [], true⟩ ∧
    (wwCommit ⟨true, true, TxStatus.ACTIVE, [(0, 0)], []⟩ (fun _ => 5) 9).clock = 9 ∧
    (wwCommit ⟨true, true, TxStatus.ACTIVE, [(0, 0)], []⟩ (fun _ => 5) 9).published = [] ∧
    (wwCommit ⟨true, true, TxStatus.ACTIVE, [(0, 0)], []⟩ (fun _ => 5) 9).success =
      ((ensureActive ⟨true, true, TxStatus.ACTIVE, [(0, 0)], []⟩).1 &&
        wwValidateReadSet [(0, 0)] [] (fun _ => 5)) :=
  empty_write_set_commit [3] (fun _ => []) (fun _ => false) 0 5
    ⟨true, true, TxStatus.ACTIVE, [(0, 0)], []⟩ (fun _ => 5) 9 rfl

/-- One iteration of the retry loop inside `STM::atomically`: the closure
body (run under a fresh `begin`) either throws `RetryException`, throws a
user exception, or returns a value after which `commit` reports its
outcome. -/
inductive AttemptOutcome (α ε : Type) where
  | retryConflict
  | userError (e : ε)
  | finished (v : α) (commitOk : Bool)
deriving DecidableEq

/-- The observable outcome of `atomically`: the closure value on a
successful commit, or a propagated user exception. -/
inductive AtomResult (α ε : Type) where
  | ok (v : α)
  | err (e : ε)
deriving DecidableEq

/-- Embedding of the retry loop of `STM::atomically`
(src/include/MVOSTM/STM.hpp lines 28-62 and src/include/OccSTM/STM.hpp lines
36-85, identical control flow): a `RetryException` is caught and the loop
re-begins; a commit returning false falls through and the loop re-begins; a
user exception leaves the epoch and propagates; a successful commit leaves
the epoch and returns the value.  The boolean in the result records that the
epoch was left on that exit path; `none` means the loop is still retrying
after the supplied attempts. -/
def atomicallyRun {α ε : Type} :
    List (AttemptOutcome α ε) → Option (AtomResult α ε × Bool)
  | [] => none
  | AttemptOutcome.retryConflict :: rest => atomicallyRun rest
  | AttemptOutcome.userError e :: _ => some (AtomResult.err e, true)
  | AttemptOutcome.finished v true :: _ => some (AtomResult.ok v, true)
  | AttemptOutcome.finished _ false :: rest => atomicallyRun rest

theorem atomicallyRun_sound {α ε : Type} :
    ∀ (attempts : List (AttemptOutcome α ε)) (r : AtomResult α ε) (left : Bool),
      atomicallyRun attempts = some (r, left) →
      left = true ∧
      ((∃ v, r = AtomResult.ok v ∧ AttemptOutcome.finished v true ∈ attempts) ∨
       (∃ e, r = AtomResult.err e ∧ AttemptOutcome.userError e ∈ attempts)) := by
  intro attempts
  induction attempts with
  | nil =>
    intro r left h
    simp [atomicallyRun] at h
  | cons head rest ih =>
    intro r left h
    cases head with
    | retryConflict =>
      rw [show atomicallyRun (AttemptOutcome.retryConflict :: rest) =
          atomicallyRun rest from rfl] at h
      obtain ⟨h1, h2⟩ := ih r left h
      refine ⟨h1, ?_⟩
      rcases h2 with ⟨v, hv, hm⟩ | ⟨e, he, hm⟩
      · exact Or.inl ⟨v, hv, List.mem_cons_of_mem _ hm⟩
      · exact Or.inr ⟨e, he, List.mem_cons_of_mem _ hm⟩
    | userError e =>
      simp only [atomicallyRun, Option.some.injEq, Prod.mk.injEq] at h
      obtain ⟨hr, hl⟩ := h
      exact ⟨hl.symm, Or.inr ⟨e, hr.symm, List.mem_cons_self _ _⟩⟩
    | finished v ok =>
      cases ok with
      | true =>
        simp only [atomicallyRun, Option.some.injEq, Prod.mk.injEq] at h
        obtain ⟨hr, hl⟩ := h
        exact ⟨hl.symm, Or.inl ⟨v, hr.symm, List.mem_cons_self _ _⟩⟩
      | false =>
        rw [show atomicallyRun (AttemptOutcome.finished v false :: rest) =
            atomicallyRun rest from rfl] at h
        obtain ⟨h1, h2⟩ := ih r left h
        refine ⟨h1, ?_⟩
        rcases h2 with ⟨w, hv, hm⟩ | ⟨e, he, hm⟩
        · exact Or.inl ⟨w, hv, List.mem_cons_of_mem _ hm⟩
        · exact Or.inr ⟨e, he, List.mem_cons_of_mem _ hm⟩

/-- Claim C8: whenever `atomically` terminates, the epoch was left on that
exit path, and the outcome is either the closure value of an attempt whose
commit succeeded or a user (non-conflict) exception thrown by the closure —
a conflict (`RetryException` or a commit returning false) never escapes:
prepending a conflicting attempt leaves the overall outcome unchanged, the
loop simply re-runs the closure under a fresh begin. -/
theorem atomically_conflict_policy {α ε : Type}
    (attempts : List (AttemptOutcome α ε)) (r : AtomResult α ε) (left : Bool)
    (h : atomicallyRun attempts = some (r, left)) :
    left = true ∧
    ((∃ v, r = AtomResult.ok v ∧ AttemptOutcome.finished v true ∈ attempts) ∨
     (∃ e, r = AtomResult.err e ∧ AttemptOutcome.userError e ∈ attempts)) ∧
    atomicallyRun (AttemptOutcome.retryConflict :: attempts) =
      atomicallyRun attempts ∧
    (∀ v, atomicallyRun (AttemptOutcome.finished v false :: attempts) =
      atomicallyRun attempts) := by
  obtain ⟨h1, h2⟩ := atomicallyRun_sound attempts r left h
  exact ⟨h1, h2, rfl, fun v => rfl⟩

/-- A concrete attempt trace: one conflict exception, one failed commit,
then a successful commit of the value 7. -/
def sampleAttempts : List (AttemptOutcome Nat Nat) :=
  [AttemptOutcome.retryConflict, AttemptOutcome.finished 7 false,
   AttemptOutcome.finished 7 true]

theorem atomically_conflict_policy_witness :
    true = true ∧
    ((∃ v, AtomResult.ok (ε := Nat) 7 = AtomResult.ok v ∧
        AttemptOutcome.finished v true ∈ sampleAttempts) ∨
     (∃ e, AtomResult.ok (ε := Nat) 7 = AtomResult.err e ∧
        AttemptOutcome.userError e ∈ sampleAttempts)) ∧
    atomicallyRun (AttemptOutcome.retryConflict :: sampleAttempts) =
      atomicallyRun sampleAttempts ∧
    (∀ v, atomicallyRun (AttemptOutcome.finished v false :: sampleAttempts) =
      atomicallyRun sampleAttempts) :=
  atomically_conflict_policy sampleAttempts (AtomResult.ok 7) true rfl

end CaSTM
